import Mathlib

set_option autoImplicit false

/-!
Verification development for the `cat-stat-analysis` repository.

The repository holds two near-identical implementations of one analysis
(`src/cat_stat/cat_stat.py` and `src/cat-stat-analysis.py`); per the spec's
design notes they have no functional difference, so this file embeds the
`cat_stat.py` variant (`sanitize_filename`, `plot_stacked_percentage_bar`,
`get_analysis`) and notes the places where the other variant is identical.

Modelling conventions:
* Python floats are idealised as exact rationals (`ℚ`); the one place where a
  non-finite float value arises (division by zero in the Cramér's V formula,
  giving IEEE NaN) is represented explicitly with `Option ℚ` and its
  comparison semantics is embedded where the source compares the value.
* `scipy.stats.chi2_contingency` is embedded from its documented semantics
  (default `correction=True`): input checks, the expected-frequency table,
  the degrees-of-freedom zero shortcut, Yates' continuity correction when
  `dof == 1`, and the Pearson sum.  The chi-square survival function that
  produces the p-value is transcendental, so it is passed in as an abstract
  argument `sf`; no claim depends on its values.
* File output is modelled as a trace of effects; each `f.write(...)` /
  `plt.savefig(...)` call of the source is one trace event carrying the full
  argument of that single call.
-/

namespace CatStat

/-- Python word-character test used by `re`'s `\W` on ASCII text: `\w` is a
letter, a digit or an underscore, and `\W` is its complement.  (Python's `re`
is Unicode-aware; the embedding covers the ASCII alphanumerics, which is the
range all concrete inputs in this development use.) -/
def isWordChar (c : Char) : Bool := c.isAlphanum || c = '_'

/-- Core of `re.sub(r'<class>+', '_', text)`: scan the characters, keep the
ones satisfying `keep`, and replace every maximal run of rejected characters
by a single underscore.  The boolean flag records whether the scanner is
currently inside a rejected run. -/
def subRuns (keep : Char → Bool) : Bool → List Char → List Char
  | _, [] => []
  | inRun, c :: cs =>
    if keep c then c :: subRuns keep false cs
    else if inRun then subRuns keep true cs
    else '_' :: subRuns keep true cs

/-- Embeds `sanitize_filename` of `cat_stat.py` line 9 (and the identical
function of `cat-stat-analysis.py` line 8): `re.sub(r'\W+', '_', text)`,
i.e. every maximal run of non-word characters becomes one underscore. -/
def sanitize_filename (text : String) : String :=
  String.mk (subRuns isWordChar false text.data)

/-- Modelled from the spec: §6 describes the sanitisation as "non-alphanumeric
runs replaced by a single underscore".  Same run replacement, but with the
kept class being the plain alphanumerics, underscore not included.  Declared
only to compare the spec's wording with `sanitize_filename`. -/
def sanitizeSpecAlnum (text : String) : String :=
  String.mk (subRuns Char.isAlphanum false text.data)

/-- Markdown report filename computed by `get_analysis` (cat_stat.py line 64). -/
def mdFilename (col1 col2 : String) : String :=
  "stat_analysis_" ++ sanitize_filename col1 ++ "_vs_" ++ sanitize_filename col2 ++ ".md"

/-- Chart filename computed by `get_analysis` (cat_stat.py line 65). -/
def pngFilename (col1 col2 : String) : String :=
  "stacked_bar_" ++ sanitize_filename col1 ++ "_vs_" ++ sanitize_filename col2 ++ ".png"

/-- Distinct values of a column in the order `pandas.crosstab` uses for its
index: sorted ascending. -/
def categories (vals : List String) : List String :=
  List.insertionSort (· ≤ ·) vals.dedup

/-- Embeds `pd.crosstab(df[col1], df[col2])` applied to the paired
observations: rows indexed by the sorted distinct values of the first column,
columns by those of the second, each cell counting the matching pairs.
Counts are carried as rationals because scipy immediately converts them to
floats. -/
def crosstab (pairs : List (String × String)) : List (List ℚ) :=
  (categories (pairs.map Prod.fst)).map fun a =>
    (categories (pairs.map Prod.snd)).map fun b =>
      ((pairs.filter fun p => p.1 == a && p.2 == b).length : ℚ)

/-- Number of rows of a table (first component of `numpy`'s `shape`). -/
def numRows (t : List (List ℚ)) : ℕ := t.length

/-- Number of columns of a table (second component of `numpy`'s `shape`);
tables built by `crosstab` are rectangular, so the head row's length is the
common row length. -/
def numCols (t : List (List ℚ)) : ℕ := (t.headD []).length

/-- Grand total `N` of all cells (`contingency_table.sum().sum()`). -/
def grandTotal (t : List (List ℚ)) : ℚ := (t.map List.sum).sum

/-- Row marginal totals (sum along axis 1). -/
def rowTotals (t : List (List ℚ)) : List ℚ := t.map List.sum

/-- Column marginal total of column `j` (sum along axis 0). -/
def colTotal (t : List (List ℚ)) (j : ℕ) : ℚ :=
  (t.map fun row => row.getD j 0).sum

/-- Column marginal totals as a list. -/
def colTotals (t : List (List ℚ)) : List ℚ :=
  (List.range (numCols t)).map (colTotal t)

/-- Expected-frequency table of `scipy.stats.contingency.expected_freq`:
the outer product of the row and column marginal totals divided by the grand
total. -/
def expectedTable (t : List (List ℚ)) : List (List ℚ) :=
  (rowTotals t).map fun r => (colTotals t).map fun c => r * c / grandTotal t

/-- Errors the analysis can surface.  `valueError` embeds the Python
`ValueError`s raised inside `scipy.stats.chi2_contingency`; `ioError` an
operating-system failure surfacing from `plt.savefig`.  The constructors
`emptyInputError` and `degenerateTableError` are modelled from the spec:
§4.1/§7 name exception classes `EmptyInputError` and `DegenerateTableError`,
but the source defines no such classes anywhere; the constructors exist only
so the spec's claims about them can be stated and compared with what the
code actually raises. -/
inductive AnalysisError where
  | valueError (msg : String)
  | ioError (msg : String)
  | emptyInputError
  | degenerateTableError
deriving DecidableEq

/-- Result quadruple of `scipy.stats.chi2_contingency`. -/
structure Chi2Result where
  chi2 : ℚ
  pValue : ℚ
  dof : ℤ
  expected : List (List ℚ)
deriving DecidableEq

/-- Yates' continuity correction as `scipy.stats.chi2_contingency` applies it
when `correction=True` and `dof == 1`: each observed count is moved toward
its expected count by `min(0.5, |expected - observed|)`. -/
def yatesAdjust (observed expected : List (List ℚ)) : List (List ℚ) :=
  (observed.zip expected).map fun re =>
    (re.1.zip re.2).map fun oe =>
      let d := oe.2 - oe.1
      oe.1 + min (1/2) |d| * (if 0 < d then 1 else if d < 0 then -1 else 0)

/-- Pearson sum `((observed - expected)**2 / expected).sum()` over the paired
cells of two tables of the same shape. -/
def pearsonSum (observed expected : List (List ℚ)) : ℚ :=
  ((observed.zip expected).map fun re =>
    ((re.1.zip re.2).map fun oe => (oe.1 - oe.2) ^ 2 / oe.2).sum).sum

/-- Embeds `scipy.stats.chi2_contingency(observed, correction)` from its
documented semantics: reject negative cells, reject an empty table
("No data"), compute the expected-frequency table, reject a zero expected
cell, compute `dof = size - sum(shape) + ndim - 1`; when `dof == 0` the
statistic is `0.0` with p-value `1.0`; when `correction` and `dof == 1`
apply Yates' continuity correction; finally the Pearson sum, with the
p-value obtained from the chi-square survival function `sf` at the computed
statistic.  `sf` is abstract because the survival function is transcendental;
no claim in this development depends on its values. -/
def chi2_contingency (correction : Bool) (sf : ℤ → ℚ → ℚ)
    (observed : List (List ℚ)) : Except AnalysisError Chi2Result :=
  if observed.any fun row => row.any fun x => decide (x < 0) then
    .error (.valueError "All values in `observed` must be nonnegative.")
  else if (observed.map List.length).sum = 0 then
    .error (.valueError "No data; `observed` has size 0.")
  else
    let expected := expectedTable observed
    if expected.any fun row => row.any fun x => decide (x = 0) then
      .error (.valueError
        "The internally computed table of expected frequencies has a zero element.")
    else
      let dof : ℤ :=
        (numRows observed * numCols observed : ℤ)
          - (numRows observed + numCols observed : ℤ) + 2 - 1
      if dof = 0 then .ok ⟨0, 1, 0, expected⟩
      else
        let obs := if correction = true ∧ dof = 1 then yatesAdjust observed expected
                   else observed
        let chi2 := pearsonSum obs expected
        .ok ⟨chi2, sf dof chi2, dof, expected⟩

/-- Square of the Cramér's V value the source computes
(`np.sqrt(chi2_stat / (n * (min(contingency_table.shape) - 1)))`,
cat_stat.py line 72).  The square is carried because the square root of a
rational is irrational in general; every comparison the source performs on
the value itself is reflected on the square.  `none` stands for the
non-finite float the source produces when the denominator is zero: that
happens only when `min(shape) = 1`, in which case `chi2_stat` is `0.0`
(degrees of freedom is then 0) and `0.0 / 0.0` is IEEE NaN. -/
def cramersVSq (t : List (List ℚ)) (chi2 : ℚ) : Option ℚ :=
  let n := grandTotal t
  let m : ℕ := min (numRows t) (numCols t)
  let denom := n * ((m : ℚ) - 1)
  if denom = 0 then none else some (chi2 / denom)

/-- Association-strength labels of the source's `cramers_conclusion`
conditional chain. -/
inductive Strength where
  | negligible
  | weak
  | moderate
  | strong
deriving DecidableEq

/-- Embeds the source's conditional chain on `cramers_v` itself
(cat_stat.py lines 86-93): `v < 0.1`, `v < 0.3`, `v < 0.5`, else strong. -/
def cramersLabel (v : ℚ) : Strength :=
  if v < 1/10 then .negligible
  else if v < 3/10 then .weak
  else if v < 1/2 then .moderate
  else .strong

/-- The same conditional chain expressed on the square of `cramers_v`, which
is what the analysis pipeline carries.  For a genuine value `v = sqrt(v2)`
with `v2 ≥ 0`, `v < c` holds exactly when `v2 < c^2` (for positive `c`), so
the thresholds are squared.  `none` (IEEE NaN) fails every `<` comparison in
Python, so the chain falls through to its final `else`: strong. -/
def labelOfVSq : Option ℚ → Strength
  | none => .strong
  | some v2 =>
    if v2 < 1/100 then .negligible
    else if v2 < 9/100 then .weak
    else if v2 < 1/4 then .moderate
    else .strong

/-- Modelled from the spec: the fixed Cramér's V bands of §4.2,
"[0, 0.1) negligible, [0.1, 0.3) weak, [0.3, 0.5) moderate, [0.5, 1.0]
strong", written as direct interval tests.  Declared only to compare with
`cramersLabel`. -/
def specBand (v : ℚ) : Strength :=
  if 0 ≤ v ∧ v < 1/10 then .negligible
  else if 1/10 ≤ v ∧ v < 3/10 then .weak
  else if 3/10 ≤ v ∧ v < 1/2 then .moderate
  else .strong

/-- The two relatedness conclusions of the source's `chi2_conclusion`. -/
inductive Relatedness where
  | related
  | noSignificant
deriving DecidableEq

/-- Embeds the `p_val < 0.05` test selecting between the two conclusion
strings (cat_stat.py lines 79-83). -/
def relatednessOf (p : ℚ) : Relatedness :=
  if p < 1/20 then .related else .noSignificant

/-- Conclusion strings of `chi2_conclusion` (cat_stat.py lines 79-83). -/
def chi2ConclusionText (col1 col2 : String) : Relatedness → String
  | .related =>
    "**Conclusion:** `" ++ col1 ++ "` and `" ++ col2 ++
      "` **are statistically related** (p-value < 0.05)."
  | .noSignificant =>
    "**Conclusion:** No significant relationship between `" ++ col1 ++
      "` and `" ++ col2 ++ "` (p-value > 0.05)."

/-- Conclusion strings of `cramers_conclusion` (cat_stat.py lines 86-93). -/
def cramersConclusionText : Strength → String
  | .negligible => "🔹 **Conclusion:** The association is **very weak or negligible**."
  | .weak => "🔹 **Conclusion:** There is a **weak association**."
  | .moderate => "🔹 **Conclusion:** There is a **moderate association**."
  | .strong => "🔹 **Conclusion:** The association is **strong**."

/-- Zero-pad a natural to four digits (fractional part of a `.4f` format). -/
def pad4 (n : ℕ) : String :=
  let s := toString n
  String.mk (List.replicate (4 - s.length) '0') ++ s

/-- Python `f"{x:.4f}"` on the exact rational idealisation: the value rounded
to four decimal places.  (CPython formats the nearest binary double; the
rounding of that double at a decimal tie can differ in the last digit, a
distinction below this embedding's granularity and irrelevant to the claims.) -/
def fmt4 (q : ℚ) : String :=
  let sign := if q < 0 then "-" else ""
  let n := (round (|q| * 10000) : ℤ).toNat
  sign ++ toString (n / 10000) ++ "." ++ pad4 (n % 10000)

/-- Python `f"{x:.4e}"` on the exact rational idealisation: scientific
notation with a four-digit mantissa fraction and a sign-and-two-digit
exponent (same caveat on decimal ties as `fmt4`). -/
def fmtE4 (q : ℚ) : String :=
  if q = 0 then "0.0000e+00"
  else
    let sign := if q < 0 then "-" else ""
    let e := Int.log 10 |q|
    let m := (round (|q| / (10 : ℚ) ^ e * 10000) : ℤ).toNat
    let me := if 100000 ≤ m then (m / 10, e + 1) else (m, e)
    let ea := me.2.natAbs
    sign ++ toString (me.1 / 10000) ++ "." ++ pad4 (me.1 % 10000) ++ "e" ++
      (if me.2 < 0 then "-" else "+") ++
      (if ea < 10 then "0" ++ toString ea else toString ea)

/-- Python `f"{cramers_v:.4f}"` where `cramers_v = sqrt(v2)`: the square root
rounded to four decimal places, computed by an integer square root; `none`
(NaN, see `cramersVSq`) prints as Python prints `float('nan')`. -/
def fmtSqrt4 : Option ℚ → String
  | none => "nan"
  | some v2 =>
    let num := (v2.num * 10 ^ 8).toNat
    let den := v2.den
    let s := Nat.sqrt (num * den)
    let n := (2 * s + den) / (2 * den)
    toString (n / 10000) ++ "." ++ pad4 (n % 10000)

/-- File-system effects of one `get_analysis` call: the single
`f.write(report_md)` of the whole report string, and the `plt.savefig` of
the chart.  One constructor application is one Python call with its full
argument. -/
inductive Effect where
  | writeMd (filename content : String)
  | savePng (filename : String)
deriving DecidableEq

/-- The `report_md` f-string template of `get_analysis`
(cat_stat.py lines 96-114), with the computed values interpolated. -/
def renderReport (col1 col2 : String) (res : Chi2Result) (vsq : Option ℚ)
    (png : String) : String :=
  "# 📊 Statistical Analysis: `" ++ col1 ++ "` vs `" ++ col2 ++ "`\n\n" ++
  "## 1️⃣ Chi-Square Test for Independence\n" ++
  "- **Chi-Square Statistic**: " ++ fmt4 res.chi2 ++ "\n" ++
  "- **p-value**: " ++ fmtE4 res.pValue ++ "\n" ++
  "- **Degrees of Freedom**: " ++ toString res.dof ++ "\n\n" ++
  chi2ConclusionText col1 col2 (relatednessOf res.pValue) ++ "\n\n" ++
  "## 2️⃣ Cramér’s V (Strength of Association)\n" ++
  "- **Cramér’s V**: " ++ fmtSqrt4 vsq ++ "\n\n" ++
  cramersConclusionText (labelOfVSq vsq) ++ "\n\n" ++
  "## 3️⃣ Visualization\n" ++
  "![Stacked Bar Chart](" ++ png ++ ")\n"

/-- Body of `get_analysis` after the contingency table is built: run
`chi2_contingency`, derive Cramér's V and the conclusions, write the Markdown
report in one `f.write` call, then render the chart.  Returns the trace of
file effects together with the error, if any, that aborted the run.  A
failure inside `chi2_contingency` propagates before any file is touched; the
`plotFails` flag models an I/O failure inside `plt.savefig`, which strikes
after the report write. -/
def analyzeTable (sf : ℤ → ℚ → ℚ) (t : List (List ℚ)) (col1 col2 : String)
    (plotFails : Bool) : List Effect × Option AnalysisError :=
  let md := mdFilename col1 col2
  let png := pngFilename col1 col2
  match chi2_contingency true sf t with
  | .error e => ([], some e)
  | .ok res =>
    let vsq := cramersVSq t res.chi2
    let report := renderReport col1 col2 res vsq png
    if plotFails then ([.writeMd md report], some (.ioError "savefig failed"))
    else ([.writeMd md report, .savePng png], none)

/-- Embeds `get_analysis(df, col1, col2)` of cat_stat.py (lines 55-119):
build the contingency table from the paired observations of the two selected
columns, then run the analysis body. -/
def get_analysis (sf : ℤ → ℚ → ℚ) (pairs : List (String × String))
    (col1 col2 : String) (plotFails : Bool) : List Effect × Option AnalysisError :=
  analyzeTable sf (crosstab pairs) col1 col2 plotFails

/-- Rectangularity of a table: every row has the common column count.  Tables
built by `crosstab` (and by `numpy` from them) always satisfy this. -/
def Rect (t : List (List ℚ)) : Prop := ∀ row ∈ t, row.length = numCols t

/-- Row marginal total read by index (spec formulation). -/
def rowTotalAt (t : List (List ℚ)) (i : ℕ) : ℚ := (t.getD i []).sum

/-- Cell read by index pair (spec formulation). -/
def cellAt (t : List (List ℚ)) (i j : ℕ) : ℚ := (t.getD i []).getD j 0

/-- Modelled from the spec: §4.2 step 1,
"expected[i][j] = row_total[i] * col_total[j] / N". -/
def expectedAt (t : List (List ℚ)) (i j : ℕ) : ℚ :=
  rowTotalAt t i * colTotal t j / grandTotal t

/-- Modelled from the spec: §4.2 step 2, "chi2_statistic = sum over all cells
of (observed[i][j] − expected[i][j])² / expected[i][j]", written as an
indexed double sum independent of the zip/map pipeline used by the embedding
of scipy. -/
def pearsonChi2Spec (t : List (List ℚ)) : ℚ :=
  ∑ i in Finset.range (numRows t), ∑ j in Finset.range (numCols t),
    (cellAt t i j - expectedAt t i j) ^ 2 / expectedAt t i j

/-- One bar rectangle of the matplotlib bar container, with the geometry
accessors the source reads (`get_x`, `get_y`, `get_width`, `get_height`). -/
structure Bar where
  x : ℚ
  y : ℚ
  width : ℚ
  height : ℚ
deriving DecidableEq

/-- An `ax.text(x, y, f'{percent:.1f}%', ...)` call emitted while labelling
the chart. -/
structure TextEvent where
  tx : ℚ
  ty : ℚ
  percent : ℚ
deriving DecidableEq

/-- The exception classes the source's `except (IndexError, KeyError)` clause
catches. -/
inductive LookupErr where
  | indexError
  | keyError
deriving DecidableEq

/-- Embeds `DataFrame.iloc[i, j]` integer-location lookup: a negative row
index counts from the end, and an out-of-range index raises `IndexError`.
The column index comes from `enumerate` and is never negative. -/
def iloc (m : List (List ℚ)) (i : ℤ) (j : ℕ) : Except LookupErr ℚ :=
  let r := m.length
  if i < -(r : ℤ) ∨ (r : ℤ) ≤ i then .error .indexError
  else
    let ri := (if i < 0 then i + r else i).toNat
    let row := m.getD ri []
    if row.length ≤ j then .error .indexError
    else .ok (row.getD j 0)

/-- Body of the `try` block of `plot_stacked_percentage_bar`
(cat_stat.py lines 35-38): look the percentage up by
`percentage_labels.iloc[int(round(bar.get_x())), i]` and emit the text call
at the segment's centre.  (Python's `round` rounds half to even; `round` here
rounds half away from zero — the two differ only at exact half-integer bar
positions, which no claim involves and which the lookup result quantifies
over anyway.) -/
def segmentLabel (labels : List (List ℚ)) (i : ℕ) (b : Bar) :
    Except LookupErr TextEvent :=
  (iloc labels (round b.x) i).map fun percent =>
    ⟨b.x + b.width / 2, b.y + b.height / 2, percent⟩

/-- Embeds the labelling loop of `plot_stacked_percentage_bar`
(cat_stat.py lines 30-40): for each container `i` and each bar of positive
height, run the `try` body; on `IndexError` or `KeyError` the `except` clause
`continue`s, skipping the label for that segment.  The `Except` return type
records that an uncaught exception would abort the whole render. -/
def renderLabels (labels : List (List ℚ)) (containers : List (List Bar)) :
    Except LookupErr (List TextEvent) :=
  containers.enum.foldlM
    (fun acc ib =>
      ib.2.foldlM
        (fun acc2 b =>
          if 0 < b.height then
            match segmentLabel labels ib.1 b with
            | .ok ev => pure (acc2 ++ [ev])
            | .error _ => pure acc2
          else pure acc2)
        acc)
    []

/-- The labels actually emitted: per container and bar, exactly the segments
of positive height whose lookup succeeds. -/
def labelEvents (labels : List (List ℚ)) (containers : List (List Bar)) :
    List TextEvent :=
  (containers.enum.map fun ib =>
    ib.2.filterMap fun b =>
      if 0 < b.height then (segmentLabel labels ib.1 b).toOption else none).flatten

/-- Stand-in chi-square survival function for concrete evaluations (the true
survival function is transcendental; every theorem that depends on the
p-value quantifies over the function instead). -/
def sfZero : ℤ → ℚ → ℚ := fun _ _ => 0

/-- Concrete observation pairs whose first column has a single distinct
category ("Male") while the second has two, exercising the degenerate-table
path (crosstab `[[1, 2]]`). -/
def demoPairs : List (String × String) :=
  [("Male", "Yes"), ("Male", "No"), ("Male", "Yes")]

/-- The report `get_analysis` produces on `demoPairs`: statistic 0, p-value 1,
zero degrees of freedom, NaN Cramér's V. -/
def demoReport : String :=
  renderReport "Gender" "Purchase" ⟨0, 1, 0, [[1, 2]]⟩ none
    (pngFilename "Gender" "Purchase")

theorem crosstab_demo : crosstab demoPairs = [[1, 2]] := by
  simp +decide [crosstab, categories, demoPairs]

theorem chi2_demo (sf : ℤ → ℚ → ℚ) :
    chi2_contingency true sf [[1, 2]] = .ok ⟨0, 1, 0, [[1, 2]]⟩ := by
  norm_num [chi2_contingency, expectedTable, rowTotals, colTotals, colTotal, grandTotal,
    numRows, numCols, List.range_succ]

theorem vsq_demo : cramersVSq [[1, 2]] 0 = none := by
  norm_num [cramersVSq, grandTotal, numRows, numCols]

theorem demo_run (sf : ℤ → ℚ → ℚ) (pf : Bool) :
    get_analysis sf demoPairs "Gender" "Purchase" pf =
      (if pf then [Effect.writeMd (mdFilename "Gender" "Purchase") demoReport]
       else [Effect.writeMd (mdFilename "Gender" "Purchase") demoReport,
             Effect.savePng (pngFilename "Gender" "Purchase")],
       if pf then some (.ioError "savefig failed") else none) := by
  rw [get_analysis, crosstab_demo]
  rw [analyzeTable, chi2_demo sf]
  simp only [vsq_demo, demoReport]
  cases pf <;> rfl

theorem chi2_worked (sf : ℤ → ℚ → ℚ) :
    chi2_contingency true sf [[4, 1], [0, 5]] =
      .ok ⟨15/4, sf 1 (15/4), 1, [[2, 3], [2, 3]]⟩ := by
  norm_num [chi2_contingency, expectedTable, rowTotals, colTotals, colTotal, grandTotal,
    numRows, numCols, List.range_succ, yatesAdjust, pearsonSum]

theorem chi2_perfect (sf : ℤ → ℚ → ℚ) :
    chi2_contingency true sf [[10, 0], [0, 10]] =
      .ok ⟨81/5, sf 1 (81/5), 1, [[5, 5], [5, 5]]⟩ := by
  norm_num [chi2_contingency, expectedTable, rowTotals, colTotals, colTotal, grandTotal,
    numRows, numCols, List.range_succ, yatesAdjust, pearsonSum]

theorem vsq_perfect : cramersVSq [[10, 0], [0, 10]] (81/5) = some (81/100) := by
  norm_num [cramersVSq, grandTotal, numRows, numCols]

theorem foldlM_bars (labels : List (List ℚ)) (i : ℕ) :
    ∀ (bars : List Bar) (acc : List TextEvent),
      (bars.foldlM
        (fun acc2 b =>
          if 0 < b.height then
            match segmentLabel labels i b with
            | .ok ev => pure (acc2 ++ [ev])
            | .error _ => pure acc2
          else pure acc2)
        acc : Except LookupErr (List TextEvent))
      = .ok (acc ++ bars.filterMap fun b =>
          if 0 < b.height then (segmentLabel labels i b).toOption else none) := by
  intro bars
  induction bars with
  | nil =>
    intro acc
    simp only [List.foldlM_nil, List.filterMap_nil, List.append_nil]
    rfl
  | cons b bs ih =>
    intro acc
    rw [List.foldlM_cons, List.filterMap_cons]
    by_cases hb : 0 < b.height
    · simp only [if_pos hb]
      cases hseg : segmentLabel labels i b with
      | ok ev => simp [hseg, ih, Except.toOption]
      | error e => simp [hseg, ih, Except.toOption]
    · simp [if_neg hb, ih]

theorem foldlM_containers (labels : List (List ℚ)) :
    ∀ (ibs : List (ℕ × List Bar)) (acc : List TextEvent),
      (ibs.foldlM
        (fun acc ib =>
          ib.2.foldlM
            (fun acc2 b =>
              if 0 < b.height then
                match segmentLabel labels ib.1 b with
                | .ok ev => pure (acc2 ++ [ev])
                | .error _ => pure acc2
              else pure acc2)
            acc)
        acc : Except LookupErr (List TextEvent))
      = .ok (acc ++ (ibs.map fun ib =>
          ib.2.filterMap fun b =>
            if 0 < b.height then (segmentLabel labels ib.1 b).toOption else none).flatten) := by
  intro ibs
  induction ibs with
  | nil =>
    intro acc
    simp only [List.foldlM_nil, List.map_nil, List.flatten_nil, List.append_nil]
    rfl
  | cons ib ibs ih =>
    intro acc
    rw [List.foldlM_cons]
    rw [foldlM_bars labels ib.1 ib.2 acc]
    show (ibs.foldlM _ _ : Except LookupErr (List TextEvent)) = _
    rw [ih]
    simp [List.append_assoc]

/-- C9: in the chart renderer, a percentage-label lookup that raises an
out-of-range or missing-key error is silently caught: the labelling pass
always completes (`Except.ok`, never an error), and the labels actually
emitted are exactly those of the positive-height segments whose lookup
succeeds — a segment with a failing lookup is rendered without a label. -/
theorem C9_label_failures_caught (labels : List (List ℚ)) (containers : List (List Bar)) :
    renderLabels labels containers = .ok (labelEvents labels containers) := by
  unfold renderLabels labelEvents
  rw [foldlM_containers]
  simp

theorem mem_subRuns {keep : Char → Bool} :
    ∀ (l : List Char) (b : Bool) (c : Char),
      c ∈ subRuns keep b l → keep c = true ∨ c = '_' := by
  intro l
  induction l with
  | nil => intro b c h; simp [subRuns] at h
  | cons a as ih =>
    intro b c h
    by_cases ha : keep a
    · rw [subRuns, if_pos ha] at h
      rcases List.mem_cons.mp h with rfl | h2
      · exact Or.inl ha
      · exact ih false c h2
    · rw [subRuns, if_neg ha] at h
      cases b with
      | true => rw [if_pos rfl] at h; exact ih true c h
      | false =>
        rw [if_neg (by simp)] at h
        rcases List.mem_cons.mp h with rfl | h2
        · exact Or.inr rfl
        · exact ih true c h2

theorem subRuns_of_kept {keep : Char → Bool} :
    ∀ (l : List Char), (∀ c ∈ l, keep c = true) → ∀ b, subRuns keep b l = l := by
  intro l
  induction l with
  | nil => intro _ b; rfl
  | cons a as ih =>
    intro h b
    have ha : keep a = true := h a (List.mem_cons_self a as)
    rw [subRuns, if_pos ha, ih (fun c hc => h c (List.mem_cons_of_mem a hc)) false]

/-- C10: `sanitize_filename` is idempotent — every character of its output is
a word character (kept characters are word characters, and the substituted
underscore is one too), and on an all-word-character string the run
substitution is the identity. -/
theorem C10_sanitize_idempotent (s : String) :
    sanitize_filename (sanitize_filename s) = sanitize_filename s := by
  unfold sanitize_filename
  congr 1
  apply subRuns_of_kept
  intro c hc
  rcases mem_subRuns s.data false c hc with h | rfl
  · exact h
  · rfl

/-- C6: the relatedness conclusion is "statistically related" exactly when
`p < 0.05`; on values in `[0, 1]` the source's conditional chain agrees with
the spec's fixed bands `[0, 0.1)`, `[0.1, 0.3)`, `[0.3, 0.5)`, `[0.5, 1.0]`;
and the squared-threshold chain the pipeline evaluates agrees with the
source's chain on the value itself. -/
theorem C6_thresholds (p v : ℚ) :
    (relatednessOf p = .related ↔ p < 1/20) ∧
    (0 ≤ v → v ≤ 1 → cramersLabel v = specBand v) ∧
    (0 ≤ v → labelOfVSq (some (v ^ 2)) = cramersLabel v) := by
  refine ⟨?_, ?_, ?_⟩
  · unfold relatednessOf
    split_ifs with h
    · exact iff_of_true rfl h
    · exact iff_of_false (by simp) h
  · intro h0 _
    unfold cramersLabel specBand
    by_cases a1 : v < 1/10
    · rw [if_pos a1, if_pos ⟨h0, a1⟩]
    · rw [if_neg a1]
      by_cases a2 : v < 3/10
      · rw [if_pos a2, if_neg (by tauto), if_pos ⟨le_of_not_lt a1, a2⟩]
      · rw [if_neg a2]
        by_cases a3 : v < 1/2
        · rw [if_pos a3, if_neg (by tauto), if_neg (by tauto), if_pos ⟨le_of_not_lt a2, a3⟩]
        · rw [if_neg a3, if_neg (by tauto), if_neg (by tauto), if_neg (by tauto)]
  · intro h0
    simp only [labelOfVSq]
    unfold cramersLabel
    split_ifs <;> first | rfl | (exfalso; nlinarith)

/-- C6 witness: the theorem applied at `p = 1/100`, `v = 1/5`. -/
theorem C6_thresholds_witness :
    ((0 : ℚ) ≤ 1/5 ∧ (1/5 : ℚ) ≤ 1) ∧
    (relatednessOf (1/100) = .related ↔ (1/100 : ℚ) < 1/20) ∧
    cramersLabel (1/5) = specBand (1/5) ∧
    labelOfVSq (some ((1/5 : ℚ) ^ 2)) = cramersLabel (1/5) :=
  ⟨⟨by norm_num, by norm_num⟩, (C6_thresholds (1/100) (1/5)).1,
   (C6_thresholds (1/100) (1/5)).2.1 (by norm_num) (by norm_num),
   (C6_thresholds (1/100) (1/5)).2.2 (by norm_num)⟩

theorem zip_self_map {α β : Type} (h : α → β) :
    ∀ l : List α, l.zip (l.map h) = l.map fun a => (a, h a) := by
  intro l
  induction l with
  | nil => rfl
  | cons a as ih => simp [List.zip_cons_cons, ih]

theorem sum_map_getD {α : Type} (dflt : α) (f : α → ℚ) :
    ∀ l : List α, (l.map f).sum = ∑ i in Finset.range l.length, f (l.getD i dflt) := by
  intro l
  induction l with
  | nil => simp
  | cons a as ih =>
    rw [List.map_cons, List.sum_cons, List.length_cons, Finset.sum_range_succ', ih]
    simp [List.getD_cons_succ, List.getD_cons_zero, add_comm]

theorem zip_sum_getD (f : ℚ × ℚ → ℚ) :
    ∀ (u v : List ℚ), u.length = v.length →
      ((u.zip v).map f).sum = ∑ j in Finset.range u.length, f (u.getD j 0, v.getD j 0) := by
  intro u
  induction u with
  | nil => intro v _; simp
  | cons a as ih =>
    intro v hlen
    cases v with
    | nil => simp at hlen
    | cons b bs =>
      rw [List.zip_cons_cons, List.map_cons, List.sum_cons, List.length_cons,
        Finset.sum_range_succ', ih bs (by simpa using hlen)]
      simp [List.getD_cons_succ, List.getD_cons_zero, add_comm]

theorem getD_map_of_lt {α β : Type} (g : α → β) (l : List α) (j : ℕ) (da : α) (db : β)
    (hj : j < l.length) : (l.map g).getD j db = g (l.getD j da) := by
  rw [List.getD_eq_getElem _ da hj, List.getD_eq_getElem _ db (by simpa using hj),
    List.getElem_map]

theorem colTotals_getD (t : List (List ℚ)) (j : ℕ) (hj : j < numCols t) :
    (colTotals t).getD j 0 = colTotal t j := by
  unfold colTotals
  rw [getD_map_of_lt (colTotal t) (List.range (numCols t)) j 0 0 (by simpa using hj)]
  congr 1
  rw [List.getD_eq_getElem _ 0 (by simpa using hj), List.getElem_range]

theorem expectedTable_eq_map (t : List (List ℚ)) :
    expectedTable t = t.map fun row => (colTotals t).map fun c => row.sum * c / grandTotal t := by
  unfold expectedTable rowTotals
  rw [List.map_map]
  rfl

/-- The zip/map Pearson sum of the scipy embedding, applied to a rectangular
table and its expected-frequency table, coincides with the spec's indexed
double-sum formula. -/
theorem pearson_bridge (t : List (List ℚ)) (hrect : Rect t) :
    pearsonSum t (expectedTable t) = pearsonChi2Spec t := by
  rw [expectedTable_eq_map]
  unfold pearsonSum pearsonChi2Spec
  rw [zip_self_map, List.map_map]
  rw [sum_map_getD []]
  apply Finset.sum_congr rfl
  intro i hi
  have hi' : i < t.length := by simpa using Finset.mem_range.mp hi
  have hmem : t.getD i [] ∈ t := by
    rw [List.getD_eq_getElem _ [] hi']
    exact List.getElem_mem hi'
  have hlen : (t.getD i []).length = numCols t := hrect _ hmem
  have hclen : ((colTotals t).map fun c => (t.getD i []).sum * c / grandTotal t).length
      = numCols t := by
    simp [colTotals]
  show ((((t.getD i []).zip ((colTotals t).map fun c => (t.getD i []).sum * c / grandTotal t)).map
      fun oe => (oe.1 - oe.2) ^ 2 / oe.2).sum) = _
  rw [zip_sum_getD _ _ _ (by rw [hlen, hclen])]
  rw [hlen]
  apply Finset.sum_congr rfl
  intro j hj
  have hj' : j < numCols t := Finset.mem_range.mp hj
  rw [getD_map_of_lt _ (colTotals t) j 0 0 (by simp [colTotals]; exact hj')]
  rw [colTotals_getD t j hj']
  unfold cellAt expectedAt rowTotalAt
  rfl

/-- C1 counterexample: on the worked example's 2×2 table `[[4, 1], [0, 5]]`
(Gender vs Purchase of `use_case.py`), the statistic `chi2_contingency`
reports is 3.75 — the Yates-corrected value — while the spec's Pearson
formula gives 20/3 ≈ 6.67; the claim that the reported statistic equals the
Pearson sum is false on 2×2 tables. -/
theorem C1_counterexample :
    (chi2_contingency true sfZero [[4, 1], [0, 5]]).map Chi2Result.chi2 = .ok (15/4) ∧
    pearsonChi2Spec [[4, 1], [0, 5]] = 20/3 ∧ ¬ ((15 : ℚ)/4 = 20/3) := by
  refine ⟨?_, ?_, by norm_num⟩
  · rw [chi2_worked sfZero]
    rfl
  · norm_num [pearsonChi2Spec, Finset.sum_range_succ, numRows, numCols, cellAt, expectedAt,
      rowTotalAt, colTotal, grandTotal]

/-- C1 (amended): for every valid contingency table (rectangular, at least
two rows and two columns) on which `chi2_contingency` succeeds, the reported
statistic equals the spec's Pearson formula whenever the degrees of freedom
differ from 1; when `dof = 1` (2×2 tables) the default Yates continuity
correction is applied first — each observed count is moved toward its
expected count by `min(0.5, |expected − observed|)` — and the reported value
is the Pearson sum of the adjusted counts. -/
theorem C1_pearson_with_yates (sf : ℤ → ℚ → ℚ) (t : List (List ℚ)) (res : Chi2Result)
    (hrect : Rect t) (hR : 2 ≤ numRows t) (hC : 2 ≤ numCols t)
    (h : chi2_contingency true sf t = .ok res) :
    res.chi2 = if res.dof = 1
               then pearsonSum (yatesAdjust t (expectedTable t)) (expectedTable t)
               else pearsonChi2Spec t := by
  have hRi : (2 : ℤ) ≤ (numRows t : ℤ) := by exact_mod_cast hR
  have hCi : (2 : ℤ) ≤ (numCols t : ℤ) := by exact_mod_cast hC
  simp only [chi2_contingency] at h
  split_ifs at h with h1 h2 h3 h4 h5 <;> cases h
  · exfalso
    have h9 : (1 : ℤ) * 1 ≤ ((numRows t : ℤ) - 1) * ((numCols t : ℤ) - 1) :=
      mul_le_mul (by linarith) (by linarith) (by linarith) (by linarith)
    nlinarith [h4]
  · obtain ⟨-, hdof⟩ := h5
    dsimp only
    rw [hdof]
    simp
  · have hne : ((numRows t * numCols t : ℤ) - ((numRows t : ℤ) + (numCols t : ℤ)) + 2 - 1) ≠ 1 :=
      fun hh => h5 ⟨trivial, hh⟩
    dsimp only
    rw [if_neg hne]
    exact pearson_bridge t hrect

/-- C1 witness: the amended theorem applied to the worked example's table,
whose result has `dof = 1` and the Yates-corrected statistic 15/4. -/
theorem C1_pearson_with_yates_witness :
    Rect [[4, 1], [0, 5]] ∧ 2 ≤ numRows [[4, 1], [0, 5]] ∧ 2 ≤ numCols [[4, 1], [0, 5]] ∧
    ((⟨15/4, 0, 1, [[2, 3], [2, 3]]⟩ : Chi2Result).chi2 =
      if (⟨15/4, 0, 1, [[2, 3], [2, 3]]⟩ : Chi2Result).dof = 1
      then pearsonSum (yatesAdjust [[4, 1], [0, 5]] (expectedTable [[4, 1], [0, 5]]))
             (expectedTable [[4, 1], [0, 5]])
      else pearsonChi2Spec [[4, 1], [0, 5]]) :=
  ⟨by unfold Rect; decide, by decide, by decide,
   C1_pearson_with_yates sfZero [[4, 1], [0, 5]] ⟨15/4, 0, 1, [[2, 3], [2, 3]]⟩
     (by unfold Rect; decide) (by decide) (by decide) (chi2_worked sfZero)⟩

/-- C2 counterexample: on the empty observation sequence the analysis does
fail before writing anything, but the error is the `ValueError` raised inside
`chi2_contingency` ("No data"), not an `EmptyInputError` — no such exception
class exists in the source. -/
theorem C2_counterexample :
    (get_analysis sfZero [] "Gender" "Purchase" false).2 ≠ some AnalysisError.emptyInputError ∧
    (get_analysis sfZero [] "Gender" "Purchase" false).2.isSome = true := by
  constructor
  · intro h
    simp [get_analysis, analyzeTable, chi2_contingency, crosstab, categories] at h
  · rfl

/-- C2 (amended): on an empty observation sequence the analysis fails with
the `ValueError` `"No data; observed has size 0."` raised by
`chi2_contingency` on the empty contingency table, and no file effect is
emitted. -/
theorem C2_empty_input (sf : ℤ → ℚ → ℚ) (c1 c2 : String) (pf : Bool) :
    get_analysis sf [] c1 c2 pf =
      ([], some (.valueError "No data; `observed` has size 0.")) := rfl

theorem range_map_getD {α : Type} (d : α) :
    ∀ l : List α, (List.range l.length).map (fun j => l.getD j d) = l := by
  intro l
  induction l with
  | nil => rfl
  | cons a as ih =>
    rw [List.length_cons, List.range_succ_eq_map, List.map_cons, List.map_map]
    have h2 : ((fun j => (a :: as).getD j d) ∘ Nat.succ) = fun j => as.getD j d :=
      funext fun j => by simp [List.getD_cons_succ]
    rw [h2, ih]
    rfl

/-- C3 counterexample: on observations whose first column has a single
distinct category ("Male" only) and whose cells are all nonzero, the
analysis does not fail at all — it completes and writes both output files
(the run's outcome is `none` and the trace has two effects), contradicting
the claim that a degenerate table fails with `DegenerateTableError` and
writes nothing. -/
theorem C3_counterexample :
    (categories (demoPairs.map Prod.fst)).length = 1 ∧
    (get_analysis sfZero demoPairs "Gender" "Purchase" false).2 = none ∧
    (get_analysis sfZero demoPairs "Gender" "Purchase" false).1.length = 2 := by
  refine ⟨by simp +decide [categories, demoPairs], ?_, ?_⟩
  · rw [demo_run sfZero false]
    rfl
  · rw [demo_run sfZero false]
    rfl

/-- C3 (amended): no `DegenerateTableError` exists in the source.  When one
column has a single distinct category (a 1×C table) and every cell is
positive, `chi2_contingency` takes its `dof = 0` shortcut (statistic 0,
p-value 1), the Cramér's V denominator is zero (NaN value, labelled strong),
and the analysis completes, writing both the report and the chart. -/
theorem C3_degenerate_completes (sf : ℤ → ℚ → ℚ) (c1 c2 : String) (row : List ℚ)
    (hne : row ≠ []) (hpos : ∀ x ∈ row, 0 < x) :
    analyzeTable sf [row] c1 c2 false =
      ([.writeMd (mdFilename c1 c2)
          (renderReport c1 c2 ⟨0, 1, 0, [row]⟩ none (pngFilename c1 c2)),
        .savePng (pngFilename c1 c2)], none) := by
  have hsum : 0 < row.sum := List.sum_pos row hpos hne
  have hgrand : grandTotal [row] = row.sum := by simp [grandTotal]
  have hnc : numCols [row] = row.length := by simp [numCols]
  have hcols : colTotals [row] = (List.range row.length).map fun j => row.getD j 0 := by
    unfold colTotals colTotal
    rw [hnc]
    simp
  have hexp : expectedTable [row] = [row] := by
    rw [expectedTable_eq_map]
    simp only [List.map_cons, List.map_nil]
    congr 1
    rw [hcols, hgrand, List.map_map]
    rw [show ((fun c => row.sum * c / row.sum) ∘ fun j => row.getD j 0)
        = fun j => row.getD j 0 from funext fun j => by
      rw [Function.comp_apply, mul_comm]
      exact mul_div_cancel_right₀ _ (ne_of_gt hsum)]
    exact range_map_getD 0 row
  have hno_neg : (([row].any fun r => r.any fun x => decide (x < 0))) = false := by
    simp only [List.any_cons, List.any_nil, Bool.or_false, List.any_eq_false]
    intro x hx
    simp [not_lt.mpr (le_of_lt (hpos x hx))]
  have hsize : ¬ ((([row] : List (List ℚ)).map List.length).sum = 0) := by
    simp only [List.map_cons, List.map_nil, List.sum_cons, List.sum_nil, add_zero]
    simpa [List.length_eq_zero] using hne
  have hzero : (([row] : List (List ℚ)).any fun r => r.any fun x => decide (x = 0)) = false := by
    simp only [List.any_cons, List.any_nil, Bool.or_false, List.any_eq_false]
    intro x hx
    simp [ne_of_gt (hpos x hx)]
  have hdof : ((numRows [row] * numCols [row] : ℤ)
      - ((numRows [row] : ℤ) + (numCols [row] : ℤ)) + 2 - 1) = 0 := by
    rw [hnc]
    unfold numRows
    simp only [List.length_cons, List.length_nil]
    push_cast
    ring
  have hchi : chi2_contingency true sf [row] = .ok ⟨0, 1, 0, [row]⟩ := by
    simp only [chi2_contingency, hexp, hno_neg, hdof]
    simp [hsize, hzero, hne]
  have hvsq : cramersVSq [row] 0 = none := by
    have hmin : min (numRows [row]) (numCols [row]) = 1 := by
      rw [hnc]
      unfold numRows
      simp only [List.length_cons, List.length_nil, zero_add]
      exact Nat.min_eq_left (List.length_pos.mpr hne)
    simp only [cramersVSq, hmin]
    norm_num
  simp only [analyzeTable, hchi]
  simp only [hvsq]
  rfl

/-- C3 witness: the amended theorem applied to the 1×2 row `[1, 2]`. -/
theorem C3_degenerate_completes_witness :
    (([1, 2] : List ℚ) ≠ [] ∧ ∀ x ∈ ([1, 2] : List ℚ), 0 < x) ∧
    analyzeTable sfZero [[1, 2]] "Gender" "Purchase" false =
      ([.writeMd (mdFilename "Gender" "Purchase")
          (renderReport "Gender" "Purchase" ⟨0, 1, 0, [[1, 2]]⟩ none
            (pngFilename "Gender" "Purchase")),
        .savePng (pngFilename "Gender" "Purchase")], none) :=
  ⟨⟨by simp, by norm_num⟩,
   C3_degenerate_completes sfZero "Gender" "Purchase" [1, 2] (by simp) (by norm_num)⟩

/-- C4 counterexample: on the perfect-association table `[[10, 0], [0, 10]]`
the square of the computed Cramér's V is 81/100, not 1 = 1²: Yates'
continuity correction (dof = 1) lowers the statistic from 20 to 81/5 = 16.2,
so `cramers_v = sqrt(16.2/20) = 0.9 ≠ 1.0` — the claim's value 1.0 is wrong
on the code. -/
theorem C4_counterexample :
    (chi2_contingency true sfZero [[10, 0], [0, 10]]).map
        (fun r => cramersVSq [[10, 0], [0, 10]] r.chi2) = .ok (some (81/100)) ∧
    ((9 : ℚ)/10) ^ 2 = 81/100 ∧ ¬ ((1 : ℚ) ^ 2 = 81/100) := by
  refine ⟨?_, by norm_num, by norm_num⟩
  rw [chi2_perfect sfZero]
  simp only [Except.map]
  rw [vsq_perfect]

/-- C4 (amended): on the table `[[10, 0], [0, 10]]` the analysis computes
statistic 81/5 (Yates-corrected) and squared Cramér's V 81/100; the
nonnegative value with that square is 9/10, its label under the source's
chain is "strong", and the label the pipeline assigns to the squared value
is "strong" as well — the claim's strength label holds, its value 1.0 does
not. -/
theorem C4_perfect_association (sf : ℤ → ℚ → ℚ) :
    ∀ v : ℚ, 0 ≤ v → v ^ 2 = 81/100 →
      (chi2_contingency true sf [[10, 0], [0, 10]]).map
          (fun r => cramersVSq [[10, 0], [0, 10]] r.chi2) = .ok (some (81/100)) ∧
      v = 9/10 ∧ cramersLabel v = .strong ∧ labelOfVSq (some (81/100)) = .strong := by
  intro v h0 h2
  have hv : v = 9/10 := by
    have hfac : (v - 9/10) * (v + 9/10) = 0 := by linear_combination h2
    rcases mul_eq_zero.mp hfac with h | h
    · linarith [sub_eq_zero.mp h]
    · exfalso; linarith [eq_neg_of_add_eq_zero_left h]
  refine ⟨?_, hv, ?_, ?_⟩
  · rw [chi2_perfect sf]
    simp only [Except.map]
    rw [vsq_perfect]
  · rw [hv]
    norm_num [cramersLabel]
  · norm_num [labelOfVSq]

/-- C4 witness: the amended theorem applied at `v = 9/10`. -/
theorem C4_perfect_association_witness :
    ((0 : ℚ) ≤ 9/10 ∧ ((9 : ℚ)/10) ^ 2 = 81/100) ∧
    ((chi2_contingency true sfZero [[10, 0], [0, 10]]).map
        (fun r => cramersVSq [[10, 0], [0, 10]] r.chi2) = .ok (some (81/100)) ∧
      (9 : ℚ)/10 = 9/10 ∧ cramersLabel (9/10) = .strong ∧
      labelOfVSq (some (81/100)) = .strong) :=
  ⟨⟨by norm_num, by norm_num⟩,
   C4_perfect_association sfZero (9/10) (by norm_num) (by norm_num)⟩

/-- Complete case analysis of one `get_analysis` run: either the statistics
fail and the trace is empty, or they succeed and the trace starts with the
single whole-report write, followed by the chart save exactly when the chart
rendering does not fail. -/
theorem analysis_trace_cases (sf : ℤ → ℚ → ℚ) (pairs : List (String × String))
    (c1 c2 : String) (pf : Bool) :
    (∃ e, chi2_contingency true sf (crosstab pairs) = .error e ∧
       get_analysis sf pairs c1 c2 pf = ([], some e)) ∨
    (∃ res, chi2_contingency true sf (crosstab pairs) = .ok res ∧
       get_analysis sf pairs c1 c2 pf =
         (Effect.writeMd (mdFilename c1 c2)
             (renderReport c1 c2 res (cramersVSq (crosstab pairs) res.chi2) (pngFilename c1 c2))
           :: (if pf then [] else [Effect.savePng (pngFilename c1 c2)]),
          if pf then some (.ioError "savefig failed") else none)) := by
  unfold get_analysis analyzeTable
  cases h : chi2_contingency true sf (crosstab pairs) with
  | error e => exact Or.inl ⟨e, rfl, rfl⟩
  | ok res => exact Or.inr ⟨res, rfl, by cases pf <;> rfl⟩

/-- C5: every Markdown write the analysis ever performs — including in runs
aborted afterwards by a chart failure — is a single `f.write` call carrying
the complete rendered report for the computed statistics; no partial report
content is ever written, and a failure before the statistics writes nothing.
(OS-level interruption inside the one `write` call is below the embedding's
granularity: the source writes the whole `report_md` string in one call.) -/
theorem C5_report_write_complete (sf : ℤ → ℚ → ℚ) (pairs : List (String × String))
    (c1 c2 : String) (pf : Bool) (f c : String)
    (hmem : Effect.writeMd f c ∈ (get_analysis sf pairs c1 c2 pf).1) :
    ∃ res, chi2_contingency true sf (crosstab pairs) = .ok res ∧
      f = mdFilename c1 c2 ∧
      c = renderReport c1 c2 res (cramersVSq (crosstab pairs) res.chi2) (pngFilename c1 c2) := by
  rcases analysis_trace_cases sf pairs c1 c2 pf with ⟨e, _, hrun⟩ | ⟨res, hres, hrun⟩
  · rw [hrun] at hmem
    simp at hmem
  · rw [hrun] at hmem
    simp only [List.mem_cons] at hmem
    rcases hmem with heq | hm2
    · injection heq with h1 h2
      exact ⟨res, hres, h1, h2⟩
    · exfalso
      cases pf <;> simp at hm2

/-- C5 witness: the theorem applied to the `demoPairs` run with a failing
chart (`pf = true`): the one write in its trace carries the complete report. -/
theorem C5_report_write_complete_witness :
    ∃ res, chi2_contingency true sfZero (crosstab demoPairs) = .ok res ∧
      mdFilename "Gender" "Purchase" = mdFilename "Gender" "Purchase" ∧
      demoReport = renderReport "Gender" "Purchase" res
        (cramersVSq (crosstab demoPairs) res.chi2) (pngFilename "Gender" "Purchase") :=
  C5_report_write_complete sfZero demoPairs "Gender" "Purchase" true
    (mdFilename "Gender" "Purchase") demoReport (by
      rw [demo_run sfZero true]
      simp)

/-- C7 counterexample: the spec's sanitisation rule ("non-alphanumeric runs
replaced by a single underscore") disagrees with the code's `\W+` rule on
any name containing an underscore adjacent to another non-word character:
for column `"a_ b"` the code produces `a__b` (underscore is a word character
for `\W`), the spec's rule produces `a_b`, and the resulting report
filenames differ. -/
theorem C7_counterexample :
    sanitize_filename "a_ b" = "a__b" ∧ sanitizeSpecAlnum "a_ b" = "a_b" ∧
    mdFilename "a_ b" "x" = "stat_analysis_a__b_vs_x.md" ∧
    mdFilename "a_ b" "x" ≠
      "stat_analysis_" ++ sanitizeSpecAlnum "a_ b" ++ "_vs_" ++ sanitizeSpecAlnum "x" ++ ".md" := by
  refine ⟨by decide, by decide, by decide, by decide⟩

/-- C7 (amended): output filenames are derived deterministically by replacing
every run of non-word characters (not alphanumeric and not underscore; the
regex `\W+`) in each column name by a single underscore: every Markdown
write in any run targets `stat_analysis_<col1>_vs_<col2>.md` and every chart
save targets `stacked_bar_<col1>_vs_<col2>.png` with the so-sanitised names. -/
theorem C7_filenames (sf : ℤ → ℚ → ℚ) (pairs : List (String × String))
    (c1 c2 : String) (pf : Bool) :
    (∀ f c, Effect.writeMd f c ∈ (get_analysis sf pairs c1 c2 pf).1 →
       f = "stat_analysis_" ++ sanitize_filename c1 ++ "_vs_" ++ sanitize_filename c2 ++ ".md") ∧
    (∀ f, Effect.savePng f ∈ (get_analysis sf pairs c1 c2 pf).1 →
       f = "stacked_bar_" ++ sanitize_filename c1 ++ "_vs_" ++ sanitize_filename c2 ++ ".png") := by
  rcases analysis_trace_cases sf pairs c1 c2 pf with ⟨e, _, hrun⟩ | ⟨res, _, hrun⟩
  · constructor
    · intro f c hm
      rw [hrun] at hm
      simp at hm
    · intro f hm
      rw [hrun] at hm
      simp at hm
  · constructor
    · intro f c hm
      rw [hrun] at hm
      simp only [List.mem_cons] at hm
      rcases hm with heq | hm2
      · injection heq with h1 _
      · exfalso
        cases pf <;> simp at hm2
    · intro f hm
      rw [hrun] at hm
      simp only [List.mem_cons] at hm
      rcases hm with heq | hm2
      · exact absurd heq (by simp)
      · cases pf
        · simp only [Bool.false_eq_true, if_false, List.mem_singleton] at hm2
          injection hm2 with h1
        · simp only [if_pos] at hm2
          exact absurd hm2 (by simp)

/-- C7 witness: the amended theorem applied to the `demoPairs` run, reading
off the Markdown filename of its write event. -/
theorem C7_filenames_witness :
    mdFilename "Gender" "Purchase" =
      "stat_analysis_" ++ sanitize_filename "Gender" ++ "_vs_" ++
        sanitize_filename "Purchase" ++ ".md" :=
  (C7_filenames sfZero demoPairs "Gender" "Purchase" true).1
    (mdFilename "Gender" "Purchase") demoReport (by
      rw [demo_run sfZero true]
      simp)

/-- C8: the analysis is a pure function of the observation pairs, the column
names and the survival function — the source consults no clock, randomness
or global mutable state — so two runs on identical input produce identical
effect traces (hence byte-identical report content) and identical statistics. -/
theorem C8_deterministic (sf : ℤ → ℚ → ℚ) (pairs : List (String × String))
    (c1 c2 : String) :
    get_analysis sf pairs c1 c2 false = get_analysis sf pairs c1 c2 false ∧
    chi2_contingency true sf (crosstab pairs) = chi2_contingency true sf (crosstab pairs) :=
  ⟨rfl, rfl⟩

end CatStat
